import Mathlib

/-
Verification of the tenant-scoped reconciliation / backfill scripts of the
jobeye repository, as a shallow embedding in Lean 4.

Modelled source files:
  * src/backfill_job_assignments.py          (job_assignments backfill)
  * src/backfill_checklist_from_transactions.py (job_checklist_items backfill)
  * src/scripts/backfill-workflow-task-items.py (workflow_task_item_associations backfill)

Modelling conventions:
  * UUIDs and other textual identifiers are Strings.
  * Database tables are lists of rows; inserts append at the end.
  * The psycopg2 connection of backfill_job_assignments.py runs a single
    transaction: `committed` holds rows visible before the run, `pending`
    holds rows inserted in the open transaction; `conn.rollback()` empties
    `pending`, the final `conn.commit()` appends `pending` to `committed`.
    SELECTs issued on the same connection see `committed ++ pending`.
  * Failures that the Python scripts cannot compute from the data alone
    (transient insert rejections, failures to insert a workflow task) are
    injected through boolean oracles.
  * Timestamp columns filled with NOW() carry no information used by any
    script and are omitted from row types.
-/

set_option autoImplicit false

namespace JobEye

abbrev Uuid := String

/- ### Model of src/backfill_job_assignments.py -/

/-- Row of the `jobs` query `SELECT id, tenant_id, assigned_to, job_number, status
FROM jobs WHERE assigned_to IS NOT NULL ORDER BY created_at`; `assigned_to` is
non-null by the filter, hence a plain `Uuid`. -/
structure Job where
  id : Uuid
  tenant_id : Uuid
  assigned_to : Uuid
  job_number : String
  status : String
deriving DecidableEq, Repr

/-- Row of the `job_assignments` table (timestamp columns omitted). -/
structure JobAssignment where
  tenant_id : Uuid
  job_id : Uuid
  user_id : Uuid
  assigned_by : Uuid
deriving DecidableEq, Repr

/-- The INSERT payload built for a job: `assigned_by` is set to the same user
as `user_id` (source comment: supervisor unknown). -/
def mkAssignment (job : Job) : JobAssignment :=
  { tenant_id := job.tenant_id, job_id := job.id
    user_id := job.assigned_to, assigned_by := job.assigned_to }

/-- The existence probe `SELECT id FROM job_assignments WHERE job_id = %s AND
user_id = %s AND tenant_id = %s`. -/
def assignmentExists (rows : List JobAssignment) (job : Job) : Bool :=
  rows.any fun a =>
    a.job_id == job.id && a.user_id == job.assigned_to && a.tenant_id == job.tenant_id

/-- State of one run of the job-assignments backfill: the committed table, the
rows inserted in the currently open transaction, and the two counters of the
script (`inserted_count`, `skipped_count`). -/
structure JARun where
  committed : List JobAssignment
  pending : List JobAssignment
  inserted : Nat
  skipped : Nat
deriving DecidableEq, Repr

/-- Body of the `for job in jobs_with_assignments` loop.  Branches, in source
order: existence probe (skip), tenant validity probe on the `tenants` table
(skip), the INSERT itself; when the INSERT raises, the except branch runs
`conn.rollback()` — discarding every uncommitted insert of the run — and
continues with the next job. -/
def processJob (tenants : List Uuid) (rejects : JobAssignment → Bool)
    (st : JARun) (job : Job) : JARun :=
  if assignmentExists (st.committed ++ st.pending) job then
    { st with skipped := st.skipped + 1 }
  else if !(tenants.contains job.tenant_id) then
    { st with skipped := st.skipped + 1 }
  else if rejects (mkAssignment job) then
    { st with pending := [] }
  else
    { st with pending := st.pending ++ [mkAssignment job], inserted := st.inserted + 1 }

/-- Observable outcome of one run: final committed contents of
`job_assignments` plus the two reported counters. -/
structure JAResult where
  table : List JobAssignment
  inserted : Nat
  skipped : Nat
deriving DecidableEq, Repr

/-- Initial transaction state of a run over a committed table. -/
def initRun (table : List JobAssignment) : JARun :=
  { committed := table, pending := [], inserted := 0, skipped := 0 }

/-- The final `conn.commit()` merges the open transaction into the table. -/
def commitRun (st : JARun) : JAResult :=
  { table := st.committed ++ st.pending, inserted := st.inserted, skipped := st.skipped }

/-- The `main` loop of src/backfill_job_assignments.py over the fetched jobs:
fold the per-job body over the candidates, then commit. -/
def backfillJobAssignments (tenants : List Uuid) (rejects : JobAssignment → Bool)
    (table : List JobAssignment) (jobs : List Job) : JAResult :=
  commitRun (List.foldl (processJob tenants rejects) (initRun table) jobs)

/-- The table a SELECT on the run's connection observes: committed rows plus
the rows of the open transaction. -/
def runTable (st : JARun) : List JobAssignment :=
  st.committed ++ st.pending

/-- A candidate is converged with respect to a table view when its assignment
already exists there or its tenant is invalid: in either case the script
skips it. -/
def convergedB (tenants : List Uuid) (rows : List JobAssignment) (job : Job) : Bool :=
  assignmentExists rows job || !(tenants.contains job.tenant_id)

/-- Two job_assignments rows carry the same natural key: the (job_id, user_id)
pair within the same tenant. -/
def sameNatKey (a b : JobAssignment) : Prop :=
  a.job_id = b.job_id ∧ a.user_id = b.user_id ∧ a.tenant_id = b.tenant_id

instance (a b : JobAssignment) : Decidable (sameNatKey a b) := by
  unfold sameNatKey; infer_instance

/-- No two rows of the list share a natural key. -/
def uniqueKeys (l : List JobAssignment) : Prop :=
  l.Pairwise fun a b => ¬ sameNatKey a b

/- ### Concrete sample rows used by witnesses and counterexamples -/

/-- Sample job with a valid tenant. -/
def jobA : Job := ⟨"job-1", "tenant-1", "user-1", "J-001", "scheduled"⟩

/-- Second sample job with a valid tenant. -/
def jobB : Job := ⟨"job-2", "tenant-1", "user-2", "J-002", "scheduled"⟩

/-- Third sample job with a valid tenant. -/
def jobC : Job := ⟨"job-3", "tenant-1", "user-3", "J-003", "completed"⟩

/-- Sample job whose tenant is absent from the tenants table. -/
def jobGhost : Job := ⟨"job-9", "tenant-ghost", "user-9", "J-009", "scheduled"⟩

/-- Failure oracle of a run in which every INSERT succeeds. -/
def rejectsNone : JobAssignment → Bool := fun _ => false

/-- Failure oracle rejecting exactly the insert for the second sample job. -/
def rejectsJob2 : JobAssignment → Bool := fun a => a.job_id == "job-2"

/- ### Model of src/backfill_checklist_from_transactions.py -/

/-- The joined `items(name,item_type,category)` record of an item_transactions
row. -/
structure ItemInfo where
  name : String
  item_type : String
  category : String
deriving DecidableEq, Repr

/-- Row of the item_transactions query for the fixed job (`transaction_type =
check_out`, ordered by created_at).  The embedded join result `items` is null
(`none`) when no item row is joined. -/
structure Tx where
  item_id : Uuid
  quantity : Int
  items : Option ItemInfo
deriving DecidableEq, Repr

/-- Entry of the `items_to_add` dict: per item_id, the item fields captured
from the first transaction seen plus the running quantity total. -/
structure ItemGroup where
  item_id : Uuid
  name : String
  item_type : String
  category : String
  total_quantity : Int
deriving DecidableEq, Repr

/-- The dict update `items_to_add[item_id]['total_quantity'] += quantity`
applied to the entry with the transaction's key. -/
def bumpGroup (tx : Tx) (g : ItemGroup) : ItemGroup :=
  if g.item_id == tx.item_id then
    { g with total_quantity := g.total_quantity + tx.quantity }
  else g

/-- One iteration of the grouping loop (source lines 44-58).  When the key is
new, the code subscripts `tx['items']` to build the entry: on a null joined
record this raises a TypeError, modelled as `none`; the new entry starts at
quantity 0 and is immediately bumped by the row's quantity.  When the key is
already present the joined record is not touched. -/
def insertTx (groups : List ItemGroup) (tx : Tx) : Option (List ItemGroup) :=
  if groups.any fun g => g.item_id == tx.item_id then
    some (groups.map (bumpGroup tx))
  else
    match tx.items with
    | none => none
    | some info =>
      some (groups ++ [⟨tx.item_id, info.name, info.item_type, info.category, 0 + tx.quantity⟩])

/-- The whole grouping pass of the script: fold the transactions (in fetch
order) into the insertion-ordered dict. -/
def groupTransactions (txs : List Tx) : Option (List ItemGroup) :=
  List.foldlM insertTx [] txs

/-- Row inserted into `job_checklist_items` (the script sends `int(...)` of
the total, the identity on integer quantities). -/
structure ChecklistItem where
  job_id : Uuid
  sequence_number : Nat
  item_type : String
  item_id : Uuid
  item_name : String
  quantity : Int
  status : String
deriving DecidableEq, Repr

/-- The insert loop (source lines 60-87): one checklist item per group, with
`sequence_number` starting at 1 and incremented per item, `status` fixed to
pending.  No existence probe precedes any insert. -/
def buildChecklistItemsFrom (job_id : Uuid) (seq : Nat) : List ItemGroup → List ChecklistItem
  | [] => []
  | g :: gs =>
    { job_id := job_id, sequence_number := seq, item_type := g.item_type,
      item_id := g.item_id, item_name := g.name, quantity := g.total_quantity,
      status := "pending" } :: buildChecklistItemsFrom job_id (seq + 1) gs

/-- The insert loop started at sequence number 1, as in the script. -/
def buildChecklistItems (job_id : Uuid) (groups : List ItemGroup) : List ChecklistItem :=
  buildChecklistItemsFrom job_id 1 groups

/-- One run of src/backfill_checklist_from_transactions.py over a
`job_checklist_items` table: group the fetched transactions and append one row
per group; `none` models the uncaught TypeError of the grouping loop. -/
def backfillChecklist (job_id : Uuid) (table : List ChecklistItem) (txs : List Tx) :
    Option (List ChecklistItem) :=
  (groupTransactions txs).map fun groups => table ++ buildChecklistItems job_id groups

/-- Number of group entries carrying a given item key. -/
def keyCount (groups : List ItemGroup) (x : Uuid) : Nat :=
  (groups.filter fun g => g.item_id == x).length

/-- Summed quantity of the group entries carrying a given item key. -/
def keyQty (groups : List ItemGroup) (x : Uuid) : Int :=
  ((groups.filter fun g => g.item_id == x).map ItemGroup.total_quantity).sum

/-- Summed quantity of the transactions carrying a given item key. -/
def txQty (txs : List Tx) (x : Uuid) : Int :=
  ((txs.filter fun t => t.item_id == x).map Tx.quantity).sum

/-- Sample joined item record. -/
def infoMower : ItemInfo := ⟨"Mower", "equipment", "landscaping"⟩

/-- Four sample check_out transactions collapsing onto one item key. -/
def txsMower : List Tx :=
  [⟨"item-1", 2, some infoMower⟩, ⟨"item-1", 1, some infoMower⟩,
   ⟨"item-1", 4, some infoMower⟩, ⟨"item-1", 3, some infoMower⟩]

/-- Sample transaction whose joined item record is null. -/
def txNullItems : Tx := ⟨"item-2", 1, none⟩

/- ### Model of src/scripts/backfill-workflow-task-items.py -/

/-- One entry of a job's `checklist_items` JSONB array.  The script reads the
fields with `.get`, so each may be absent: a missing `id` is `none`, a missing
`quantity` defaults to 1 at use, and missing boolean flags are falsy. -/
structure RawChecklistItem where
  id : Option Uuid
  quantity : Option Int
  loaded : Bool
  verified : Bool
  missing : Bool
deriving DecidableEq, Repr

/-- Row of the jobs query `select=id,title,tenant_id,checklist_items` with
`checklist_items=not.is.null`; a null JSONB array and an empty one are both
the empty list. -/
structure WJob where
  id : Uuid
  title : String
  tenant_id : Uuid
  checklist_items : List RawChecklistItem
deriving DecidableEq, Repr

/-- Row of the `workflow_tasks` table, as created or probed by the script. -/
structure WTask where
  id : Uuid
  job_id : Uuid
  tenant_id : Uuid
  task_description : String
  task_order : Nat
  status : String
deriving DecidableEq, Repr

/-- Row of the `workflow_task_item_associations` table. -/
structure Association where
  tenant_id : Uuid
  workflow_task_id : Uuid
  item_id : Uuid
  quantity : Int
  is_required : Bool
  status : String
deriving DecidableEq, Repr

/-- The slice of the database the workflow backfill touches: the tenants and
items tables (only row existence matters to the script), the workflow_tasks
table and the associations table. -/
structure WDb where
  tenants : List Uuid
  items : List Uuid
  tasks : List WTask
  assocs : List Association
deriving DecidableEq, Repr

/-- Failure oracle for the two POSTs of the script: `taskFails t` makes the
workflow_tasks insert fail (any non-2xx reason), `assocRejects a` makes the
associations insert fail for a reason other than a duplicate natural key or a
missing tenant. -/
structure WOracle where
  taskFails : WTask → Bool
  assocRejects : Association → Bool

/-- The two `sys.exit(1)` exits of the script: the jobs fetch failing and the
default-task POST failing. -/
inductive WAbort where
  | sourceUnavailable
  | taskCreateFailed
deriving DecidableEq, Repr

/-- Per-job counters returned by `backfill_job`. -/
structure JobStats where
  skipped : Nat
  created : Nat
  errors : Nat
deriving DecidableEq, Repr

/-- Outcome of one associations POST as the script distinguishes it: 2xx,
response text mentioning a duplicate/unique violation, or any other error. -/
inductive PostResult where
  | created
  | dupKey
  | rejected
deriving DecidableEq, Repr

/-- Status derivation (source lines 147-152): `missing` wins over `verified`
wins over `loaded` wins over pending. -/
def itemStatus (c : RawChecklistItem) : String :=
  if c.missing then "missing"
  else if c.verified then "verified"
  else if c.loaded then "loaded"
  else "pending"

/-- The association payload built for one checklist item (source lines
154-162): quantity defaults to 1, `is_required` is always true. -/
def mkAssociation (tenant_id task_id item_id : Uuid) (c : RawChecklistItem) : Association :=
  { tenant_id := tenant_id, workflow_task_id := task_id, item_id := item_id,
    quantity := c.quantity.getD 1, is_required := true, status := itemStatus c }

/-- The POST to workflow_task_item_associations against a relational store
that enforces the natural-key uniqueness (workflow task + item) — the
violation the script recognises in the response text — and the tenant foreign
key; any further rejection comes from the oracle. -/
def postAssociation (tenants : List Uuid) (rejects : Association → Bool)
    (assocs : List Association) (a : Association) : PostResult × List Association :=
  if assocs.any fun b => b.workflow_task_id == a.workflow_task_id && b.item_id == a.item_id then
    (.dupKey, assocs)
  else if !(tenants.contains a.tenant_id) then
    (.rejected, assocs)
  else if rejects a then
    (.rejected, assocs)
  else
    (.created, assocs ++ [a])

/-- Body of the `for checklist_item in checklist_items` loop (source lines
135-179): an entry without id is passed over silently, an entry whose item is
not in the items table counts as an error, otherwise the POST outcome is
classified — created counts, a duplicate key is a no-op, everything else is
an error.  No branch stops the loop. -/
def processChecklistItem (rejects : Association → Bool) (tenants items : List Uuid)
    (tenant_id task_id : Uuid) (st : JobStats × List Association)
    (c : RawChecklistItem) : JobStats × List Association :=
  match c.id with
  | none => st
  | some item_id =>
    if !(items.contains item_id) then
      ({ st.1 with errors := st.1.errors + 1 }, st.2)
    else
      match postAssociation tenants rejects st.2 (mkAssociation tenant_id task_id item_id c) with
      | (.created, assocs') => ({ st.1 with created := st.1.created + 1 }, assocs')
      | (.dupKey, assocs') => (st.1, assocs')
      | (.rejected, assocs') => ({ st.1 with errors := st.1.errors + 1 }, assocs')

/-- The default workflow task the script creates when a job has none; its id
is the store-generated `fresh`. -/
def defaultTask (fresh : Uuid) (job_id tenant_id : Uuid) : WTask :=
  { id := fresh, job_id := job_id, tenant_id := tenant_id,
    task_description := "Job Load Verification (auto-created for checklist items migration)",
    task_order := 1, status := "pending" }

/-- get_or_create_default_task (source lines 70-106): reuse the first
workflow task of the job when one exists; otherwise POST the default task —
and `sys.exit(1)` when that POST fails. -/
def get_or_create_default_task (oracle : WOracle) (fresh : Uuid) (db : WDb)
    (job_id tenant_id : Uuid) : Except WAbort (Uuid × WDb) :=
  match db.tasks.find? fun t => t.job_id == job_id with
  | some t => .ok (t.id, db)
  | none =>
    let t := defaultTask fresh job_id tenant_id
    if oracle.taskFails t then .error .taskCreateFailed
    else .ok (t.id, { db with tasks := db.tasks ++ [t] })

/-- backfill_job (source lines 108-181): an empty checklist is a skip; in
dry-run mode the job returns `created = len(checklist_items)` before touching
the store; otherwise the default task is obtained (possibly aborting the whole
run) and the checklist items are folded over the associations table. -/
def backfill_job (oracle : WOracle) (fresh : Uuid) (db : WDb) (job : WJob)
    (dry_run : Bool) : Except WAbort (JobStats × WDb) :=
  if job.checklist_items.isEmpty then .ok (⟨1, 0, 0⟩, db)
  else if dry_run then .ok (⟨0, job.checklist_items.length, 0⟩, db)
  else
    match get_or_create_default_task oracle fresh db job.id job.tenant_id with
    | .error e => .error e
    | .ok (task_id, db1) =>
      let r := List.foldl
        (processChecklistItem oracle.assocRejects db1.tenants db1.items job.tenant_id task_id)
        (⟨0, 0, 0⟩, db1.assocs) job.checklist_items
      .ok (r.1, { db1 with assocs := r.2 })

/-- Summary of a whole run of the script's `main`: the three accumulated
totals and the final database state. -/
structure WSummary where
  created : Nat
  errors : Nat
  skipped : Nat
  db : WDb
deriving DecidableEq, Repr

/-- One iteration of `main`'s `for job in jobs` loop. -/
def wStep (oracle : WOracle) (freshId : WJob → Uuid) (dry_run : Bool)
    (acc : WSummary) (job : WJob) : Except WAbort WSummary :=
  match backfill_job oracle (freshId job) acc.db job dry_run with
  | .error e => .error e
  | .ok (stats, db') =>
    .ok ⟨acc.created + stats.created, acc.errors + stats.errors,
      acc.skipped + stats.skipped, db'⟩

/-- `main` of the script: a failed jobs fetch exits before anything else
(`sys.exit(1)` at source lines 43-45); otherwise at most `limit` jobs are
fetched and processed in order. -/
def runBackfill (oracle : WOracle) (freshId : WJob → Uuid) (fetchOk : Bool)
    (db : WDb) (jobs : List WJob) (dry_run : Bool) (limit : Nat) :
    Except WAbort WSummary :=
  if fetchOk then
    List.foldlM (wStep oracle freshId dry_run) ⟨0, 0, 0, db⟩ (jobs.take limit)
  else .error .sourceUnavailable

/-- Sample checklist entry referencing an existing item. -/
def rciMower : RawChecklistItem := ⟨some "item-1", some 2, false, false, false⟩

/-- Sample job whose tenant is absent from the tenants table. -/
def jobGhostW : WJob := ⟨"job-w1", "Mow lawn", "t-ghost", [rciMower]⟩

/-- Sample job with a valid tenant. -/
def jobValidW : WJob := ⟨"job-w2", "Trim hedges", "t-real", [rciMower]⟩

/-- Existing workflow task of the ghost-tenant job. -/
def taskW1 : WTask := ⟨"task-1", "job-w1", "t-ghost", "Initial walkthrough", 1, "in_progress"⟩

/-- Existing workflow task of the valid-tenant job. -/
def taskW2 : WTask := ⟨"task-2", "job-w2", "t-real", "Initial walkthrough", 1, "in_progress"⟩

/-- Store slice in which the ghost-tenant job already has a workflow task. -/
def dbGhost : WDb := ⟨["t-real"], ["item-1"], [taskW1], []⟩

/-- Store slice in which the valid-tenant job already has a workflow task. -/
def dbWithTask : WDb := ⟨["t-real"], ["item-1"], [taskW2], []⟩

/-- Store slice with no workflow tasks at all. -/
def dbNoTask : WDb := ⟨["t-real"], ["item-1"], [], []⟩

/-- Oracle of a healthy store: every POST succeeds. -/
def oracleOk : WOracle := ⟨fun _ => false, fun _ => false⟩

/-- Oracle of a store in which every workflow_tasks POST fails. -/
def oracleTaskFail : WOracle := ⟨fun _ => true, fun _ => false⟩

/- ### Basic lemmas about the job-assignments run -/

theorem processJob_committed (tenants : List Uuid) (rejects : JobAssignment → Bool)
    (st : JARun) (job : Job) :
    (processJob tenants rejects st job).committed = st.committed := by
  unfold processJob
  split
  · rfl
  · split
    · rfl
    · split <;> rfl

theorem foldl_processJob_committed (tenants : List Uuid) (rejects : JobAssignment → Bool)
    (jobs : List Job) : ∀ st : JARun,
    (List.foldl (processJob tenants rejects) st jobs).committed = st.committed := by
  induction jobs with
  | nil => intro st; rfl
  | cons j rest ih =>
    intro st
    rw [List.foldl_cons, ih, processJob_committed]

theorem assignmentExists_mono (rows rows' : List JobAssignment) (job : Job)
    (hsub : List.Sublist rows rows') (h : assignmentExists rows job = true) :
    assignmentExists rows' job = true := by
  obtain ⟨a, ha, hp⟩ := List.any_eq_true.mp h
  exact List.any_eq_true.mpr ⟨a, hsub.mem ha, hp⟩

/-- When no insert is rejected, a step never removes rows from the
transaction's view of the table. -/
theorem processJob_table_sublist (tenants : List Uuid) (rejects : JobAssignment → Bool)
    (st : JARun) (job : Job) (hnf : ∀ a, rejects a = false) :
    List.Sublist (runTable st) (runTable (processJob tenants rejects st job)) := by
  unfold processJob runTable
  split
  · exact List.Sublist.refl _
  · split
    · exact List.Sublist.refl _
    · rw [hnf (mkAssignment job)]
      simp only [Bool.false_eq_true, if_false]
      rw [← List.append_assoc]
      exact List.sublist_append_left _ _

theorem foldl_processJob_table_sublist (tenants : List Uuid) (rejects : JobAssignment → Bool)
    (jobs : List Job) (hnf : ∀ a, rejects a = false) : ∀ st : JARun,
    List.Sublist (runTable st) (runTable (List.foldl (processJob tenants rejects) st jobs)) := by
  induction jobs with
  | nil => intro st; exact List.Sublist.refl _
  | cons j rest ih =>
    intro st
    rw [List.foldl_cons]
    exact (processJob_table_sublist tenants rejects st j hnf).trans (ih _)

theorem convergedB_mono (tenants : List Uuid) (rows rows' : List JobAssignment) (job : Job)
    (hsub : List.Sublist rows rows') (h : convergedB tenants rows job = true) :
    convergedB tenants rows' job = true := by
  unfold convergedB at h ⊢
  rcases Bool.or_eq_true_iff.mp h with h1 | h2
  · exact Bool.or_eq_true_iff.mpr (Or.inl (assignmentExists_mono rows rows' job hsub h1))
  · exact Bool.or_eq_true_iff.mpr (Or.inr h2)

/-- A converged candidate is skipped: the step only increments the skip
counter. -/
theorem processJob_of_converged (tenants : List Uuid) (rejects : JobAssignment → Bool)
    (st : JARun) (job : Job) (h : convergedB tenants (runTable st) job = true) :
    processJob tenants rejects st job = { st with skipped := st.skipped + 1 } := by
  rcases Bool.or_eq_true_iff.mp h with h1 | h2
  · simp only [runTable] at h1
    unfold processJob
    simp [h1]
  · unfold processJob
    simp at h2
    simp [h2]

/-- A run over only-converged candidates changes nothing but the skip
counter. -/
theorem foldl_processJob_of_converged (tenants : List Uuid) (rejects : JobAssignment → Bool)
    (jobs : List Job) : ∀ st : JARun,
    (∀ j ∈ jobs, convergedB tenants (runTable st) j = true) →
    List.foldl (processJob tenants rejects) st jobs
      = { st with skipped := st.skipped + jobs.length } := by
  induction jobs with
  | nil => intro st _; rfl
  | cons j rest ih =>
    intro st hall
    rw [List.foldl_cons, processJob_of_converged tenants rejects st j (hall j (by simp))]
    rw [ih { st with skipped := st.skipped + 1 }
      (by intro j' hj'; exact hall j' (List.mem_cons_of_mem _ hj'))]
    simp [Nat.add_assoc, Nat.add_comm 1 rest.length]

/-- After a run with no rejected insert, every processed candidate is
converged in the final view of the table. -/
theorem foldl_processJob_converges (tenants : List Uuid) (rejects : JobAssignment → Bool)
    (jobs : List Job) (hnf : ∀ a, rejects a = false) : ∀ (st : JARun), ∀ j ∈ jobs,
    convergedB tenants (runTable (List.foldl (processJob tenants rejects) st jobs)) j = true := by
  induction jobs with
  | nil => intro st j hj; cases hj
  | cons j1 rest ih =>
    intro st j hj
    rw [List.foldl_cons]
    rcases List.mem_cons.mp hj with rfl | hmem
    · -- the candidate at the head is converged right after its own step,
      -- and stays converged as the table view only grows
      refine convergedB_mono tenants _ _ j
        (foldl_processJob_table_sublist tenants rejects rest hnf _) ?_
      unfold processJob
      split
      · next hex => exact Bool.or_eq_true_iff.mpr (Or.inl hex)
      · split
        · next hten => exact Bool.or_eq_true_iff.mpr (Or.inr hten)
        · rw [hnf (mkAssignment j)]
          simp only [Bool.false_eq_true, if_false]
          refine Bool.or_eq_true_iff.mpr (Or.inl ?_)
          refine List.any_eq_true.mpr ⟨mkAssignment j, ?_, ?_⟩
          · unfold runTable
            simp [mkAssignment]
          · simp [mkAssignment]
    · exact ih _ j hmem

theorem assignmentExists_eq_false_iff (rows : List JobAssignment) (job : Job) :
    assignmentExists rows job = false ↔ ∀ a ∈ rows, ¬ sameNatKey a (mkAssignment job) := by
  unfold assignmentExists
  rw [List.any_eq_false]
  simp [sameNatKey, mkAssignment]

/-- A step of the job-assignments run never creates a second row with an
already present natural key: skip branches leave the table view unchanged, a
rollback only removes rows, and the insert branch is guarded by the existence
probe on exactly the natural-key triple. -/
theorem processJob_uniqueKeys (tenants : List Uuid) (rejects : JobAssignment → Bool)
    (st : JARun) (job : Job) (h : uniqueKeys (runTable st)) :
    uniqueKeys (runTable (processJob tenants rejects st job)) := by
  unfold processJob
  by_cases hex : assignmentExists (st.committed ++ st.pending) job = true
  · simpa [hex] using h
  · rw [if_neg hex]
    by_cases ht : (!tenants.contains job.tenant_id) = true
    · simp at ht
      simpa [ht] using h
    · rw [if_neg ht]
      by_cases hr : rejects (mkAssignment job) = true
      · rw [if_pos hr]
        unfold runTable at h ⊢
        exact h.sublist (by simp)
      · rw [if_neg hr]
        unfold runTable uniqueKeys at h ⊢
        simp only [← List.append_assoc]
        rw [List.pairwise_append]
        refine ⟨h, List.pairwise_singleton _ _, ?_⟩
        intro a ha b hb
        rw [List.mem_singleton] at hb
        subst hb
        have hfalse : assignmentExists (st.committed ++ st.pending) job = false :=
          Bool.not_eq_true _ ▸ Bool.of_not_eq_true hex
        exact (assignmentExists_eq_false_iff _ job).mp hfalse a ha

theorem foldl_processJob_uniqueKeys (tenants : List Uuid) (rejects : JobAssignment → Bool)
    (jobs : List Job) : ∀ st : JARun, uniqueKeys (runTable st) →
    uniqueKeys (runTable (List.foldl (processJob tenants rejects) st jobs)) := by
  induction jobs with
  | nil => intro st h; exact h
  | cons j rest ih =>
    intro st h
    rw [List.foldl_cons]
    exact ih _ (processJob_uniqueKeys tenants rejects st j h)

/-- The branching of a step only reads the table view; the skip counter is
threaded through additively. -/
theorem processJob_skipped_add (tenants : List Uuid) (rejects : JobAssignment → Bool)
    (j : Job) (c p : List JobAssignment) (i s k : Nat) :
    processJob tenants rejects ⟨c, p, i, s + k⟩ j
      = { processJob tenants rejects ⟨c, p, i, s⟩ j with
          skipped := (processJob tenants rejects ⟨c, p, i, s⟩ j).skipped + k } := by
  by_cases h1 : assignmentExists (c ++ p) j = true
  · simp only [processJob, h1, if_true]
    simp [JARun.mk.injEq]
    omega
  · by_cases h2 : (!tenants.contains j.tenant_id) = true
    · simp only [processJob, h1, if_false, h2, if_true]
      simp [JARun.mk.injEq]
      omega
    · by_cases h3 : rejects (mkAssignment j) = true
      · simp only [processJob, h1, if_false, h2, h3, if_true]
        simp [h1, h2]
      · simp only [processJob, h1, h2, h3, if_false]
        simp [h1, h2, h3]

theorem foldl_processJob_skipped_add (tenants : List Uuid) (rejects : JobAssignment → Bool)
    (jobs : List Job) : ∀ (c p : List JobAssignment) (i s k : Nat),
    List.foldl (processJob tenants rejects) ⟨c, p, i, s + k⟩ jobs
      = { List.foldl (processJob tenants rejects) ⟨c, p, i, s⟩ jobs with
          skipped := (List.foldl (processJob tenants rejects) ⟨c, p, i, s⟩ jobs).skipped + k } := by
  induction jobs with
  | nil => intros; rfl
  | cons j rest ih =>
    intro c p i s k
    rw [List.foldl_cons, List.foldl_cons, processJob_skipped_add]
    rcases hr : processJob tenants rejects ⟨c, p, i, s⟩ j with ⟨c', p', i', s'⟩
    exact ih c' p' i' s' k

/-- An insert rejected for a non-key reason triggers the rollback branch: the
whole uncommitted transaction is discarded and the loop moves on. -/
theorem processJob_rejected (tenants : List Uuid) (rejects : JobAssignment → Bool)
    (st : JARun) (j : Job)
    (h1 : assignmentExists (runTable st) j = false)
    (h2 : tenants.contains j.tenant_id = true)
    (h3 : rejects (mkAssignment j) = true) :
    processJob tenants rejects st j = { st with pending := [] } := by
  unfold runTable at h1
  have h2' : j.tenant_id ∈ tenants := by simpa using h2
  unfold processJob
  simp [h1, h2', h3]

/-- Every row appearing in the open transaction during a run is the assignment
derived from one of the processed jobs. -/
theorem foldl_processJob_pending_mem (tenants : List Uuid) (rejects : JobAssignment → Bool)
    (jobs : List Job) : ∀ (st : JARun) (a : JobAssignment),
    a ∈ (List.foldl (processJob tenants rejects) st jobs).pending →
    a ∈ st.pending ∨ ∃ j ∈ jobs, a = mkAssignment j := by
  induction jobs with
  | nil => intro st a ha; exact Or.inl ha
  | cons j rest ih =>
    intro st a ha
    rw [List.foldl_cons] at ha
    rcases ih _ a ha with hmem | ⟨j', hj', rfl⟩
    · have hstep : a ∈ st.pending ∨ a = mkAssignment j := by
        unfold processJob at hmem
        split at hmem
        · exact Or.inl hmem
        · split at hmem
          · exact Or.inl hmem
          · split at hmem
            · exact absurd hmem (List.not_mem_nil a)
            · rcases List.mem_append.mp hmem with h | h
              · exact Or.inl h
              · exact Or.inr (List.mem_singleton.mp h)
      rcases hstep with h | rfl
      · exact Or.inl h
      · exact Or.inr ⟨j, by simp, rfl⟩
    · exact Or.inr ⟨j', List.mem_cons_of_mem _ hj', rfl⟩

/- ### Claim theorems on the job-assignments reconciler -/

/-- C1 (amended): for the job-assignments reconciler — the instance that
performs the existence probe — a second run over the same jobs, when no insert
was rejected, creates zero assignments and leaves the table identical, and the
run never introduces two rows with the same natural key within a tenant.  (The
transaction-checklist backfill performs no such probe; see the
counterexample.) -/
theorem claim1_theorem (tenants : List Uuid) (rejects : JobAssignment → Bool)
    (table : List JobAssignment) (jobs : List Job) (hnf : ∀ a, rejects a = false) :
    (backfillJobAssignments tenants rejects
        (backfillJobAssignments tenants rejects table jobs).table jobs).inserted = 0 ∧
    (backfillJobAssignments tenants rejects
        (backfillJobAssignments tenants rejects table jobs).table jobs).table
      = (backfillJobAssignments tenants rejects table jobs).table ∧
    (uniqueKeys table → uniqueKeys (backfillJobAssignments tenants rejects table jobs).table) := by
  set r1 := backfillJobAssignments tenants rejects table jobs with hr1
  have htab : r1.table = runTable (List.foldl (processJob tenants rejects) (initRun table) jobs) :=
    rfl
  have hconv : ∀ j ∈ jobs, convergedB tenants (runTable (initRun r1.table)) j = true := by
    intro j hj
    have h := foldl_processJob_converges tenants rejects jobs hnf (initRun table) j hj
    rw [htab]
    simpa [runTable, initRun] using h
  have hrun2 : backfillJobAssignments tenants rejects r1.table jobs
      = commitRun { initRun r1.table with skipped := 0 + jobs.length } := by
    unfold backfillJobAssignments
    rw [foldl_processJob_of_converged tenants rejects jobs _ hconv]
    simp [initRun]
  refine ⟨?_, ?_, ?_⟩
  · rw [hrun2]; rfl
  · rw [hrun2]; simp [commitRun, initRun]
  · intro hu
    rw [htab]
    exact foldl_processJob_uniqueKeys tenants rejects jobs (initRun table)
      (by simpa [runTable, initRun] using hu)

/-- C1 witness: a concrete two-job batch (one valid tenant, one ghost tenant)
run twice with no insert failures. -/
theorem claim1_witness :
    (backfillJobAssignments ["tenant-1"] rejectsNone
        (backfillJobAssignments ["tenant-1"] rejectsNone [] [jobA, jobGhost]).table
        [jobA, jobGhost]).inserted = 0 ∧
    (backfillJobAssignments ["tenant-1"] rejectsNone
        (backfillJobAssignments ["tenant-1"] rejectsNone [] [jobA, jobGhost]).table
        [jobA, jobGhost]).table
      = (backfillJobAssignments ["tenant-1"] rejectsNone [] [jobA, jobGhost]).table ∧
    uniqueKeys (backfillJobAssignments ["tenant-1"] rejectsNone [] [jobA, jobGhost]).table := by
  have h := claim1_theorem ["tenant-1"] rejectsNone [] [jobA, jobGhost] (fun _ => rfl)
  exact ⟨h.1, h.2.1, h.2.2 List.Pairwise.nil⟩

/-- C2 (amended): in the job-assignments reconciler, a candidate whose tenant
identifier is absent from the tenants table is skipped — the run behaves
exactly as if the candidate were not in the batch, except that the skip
counter is one higher; in particular it is never created, it triggers no
rollback, and sibling candidates with valid tenants are created exactly as
they would be without it.  (The workflow-task-items reconciler performs no
tenant validation; an invalid tenant surfaces there as an errored insert, see
the counterexample.) -/
theorem claim2_theorem (tenants : List Uuid) (rejects : JobAssignment → Bool)
    (table : List JobAssignment) (pre post : List Job) (j : Job)
    (hbad : tenants.contains j.tenant_id = false) :
    (backfillJobAssignments tenants rejects table (pre ++ j :: post)).table
      = (backfillJobAssignments tenants rejects table (pre ++ post)).table ∧
    (backfillJobAssignments tenants rejects table (pre ++ j :: post)).inserted
      = (backfillJobAssignments tenants rejects table (pre ++ post)).inserted ∧
    (backfillJobAssignments tenants rejects table (pre ++ j :: post)).skipped
      = (backfillJobAssignments tenants rejects table (pre ++ post)).skipped + 1 := by
  have hconv : ∀ st : JARun, convergedB tenants (runTable st) j = true := by
    intro st
    unfold convergedB
    rw [hbad]
    simp
  unfold backfillJobAssignments commitRun
  rw [List.foldl_append, List.foldl_append, List.foldl_cons,
    processJob_of_converged tenants rejects _ j (hconv _)]
  rcases List.foldl (processJob tenants rejects) (initRun table) pre with ⟨c, p, i, s⟩
  rw [show ({ committed := c, pending := p, inserted := i, skipped := s + 1 } : JARun)
      = ⟨c, p, i, s + 1⟩ from rfl]
  rw [foldl_processJob_skipped_add tenants rejects post c p i s 1]
  exact ⟨rfl, rfl, rfl⟩

/-- C2 witness: a ghost-tenant candidate between two valid candidates is
skipped and does not affect what gets created for the siblings. -/
theorem claim2_witness :
    (backfillJobAssignments ["tenant-1"] rejectsNone [] [jobA, jobGhost, jobC]).table
      = (backfillJobAssignments ["tenant-1"] rejectsNone [] [jobA, jobC]).table ∧
    (backfillJobAssignments ["tenant-1"] rejectsNone [] [jobA, jobGhost, jobC]).inserted
      = (backfillJobAssignments ["tenant-1"] rejectsNone [] [jobA, jobC]).inserted ∧
    (backfillJobAssignments ["tenant-1"] rejectsNone [] [jobA, jobGhost, jobC]).skipped
      = (backfillJobAssignments ["tenant-1"] rejectsNone [] [jobA, jobC]).skipped + 1 :=
  claim2_theorem ["tenant-1"] rejectsNone [] [jobA] [jobC] jobGhost (by decide)

/-- C3 counterexample: with jobs 1..3 and the insert for job 2 rejected, the
run still counts two inserts (jobs 1 and 3) but the final committed table
holds only job 3's assignment: the failure at job 2 triggered
`conn.rollback()`, undoing the assignment already created for job 1 in the
same run — contradicting per-candidate atomic commits. -/
theorem claim3_counterexample :
    backfillJobAssignments ["tenant-1"] rejectsJob2 [] [jobA, jobB, jobC]
      = ⟨[mkAssignment jobC], 2, 0⟩ ∧
    mkAssignment jobA ∉
      (backfillJobAssignments ["tenant-1"] rejectsJob2 [] [jobA, jobB, jobC]).table := by
  decide

/-- C3 (amended): when candidate j's insert is rejected, the candidates after
j are still processed (the run continues over `post` and later inserts can
succeed), but the batch is one transaction committed once at the end: the
rejection rolls back every insert of the earlier candidates still pending in
the open transaction. -/
theorem claim3_theorem (tenants : List Uuid) (rejects : JobAssignment → Bool)
    (table : List JobAssignment) (pre post : List Job) (j : Job)
    (h1 : assignmentExists
      (runTable (List.foldl (processJob tenants rejects) (initRun table) pre)) j = false)
    (h2 : tenants.contains j.tenant_id = true)
    (h3 : rejects (mkAssignment j) = true) :
    backfillJobAssignments tenants rejects table (pre ++ j :: post)
      = commitRun (List.foldl (processJob tenants rejects)
          { List.foldl (processJob tenants rejects) (initRun table) pre with pending := [] }
          post) ∧
    (List.foldl (processJob tenants rejects) (initRun table) (pre ++ [j])).pending = [] := by
  have hstep := processJob_rejected tenants rejects
    (List.foldl (processJob tenants rejects) (initRun table) pre) j h1 h2 h3
  constructor
  · unfold backfillJobAssignments
    rw [List.foldl_append, List.foldl_cons, hstep]
  · rw [List.foldl_append, List.foldl_cons, List.foldl_nil, hstep]

/-- C3 witness: concrete instance of the amended statement — job 2's rejected
insert empties the open transaction while job 3 is still processed. -/
theorem claim3_witness :
    backfillJobAssignments ["tenant-1"] rejectsJob2 [] ([jobA] ++ jobB :: [jobC])
      = commitRun (List.foldl (processJob ["tenant-1"] rejectsJob2)
          { List.foldl (processJob ["tenant-1"] rejectsJob2) (initRun []) [jobA] with
            pending := [] } [jobC]) ∧
    (List.foldl (processJob ["tenant-1"] rejectsJob2) (initRun []) ([jobA] ++ [jobB])).pending
      = [] :=
  claim3_theorem ["tenant-1"] rejectsJob2 [] [jobA] [jobC] jobB (by decide) (by decide)
    (by decide)

/-- C9: every job_assignments row created by the backfill (any row of the
final table not present initially) names the job's assignee as its own
assigner: `assigned_by = user_id = job.assigned_to`. -/
theorem claim9_theorem (tenants : List Uuid) (rejects : JobAssignment → Bool)
    (table : List JobAssignment) (jobs : List Job) (a : JobAssignment)
    (ha : a ∈ (backfillJobAssignments tenants rejects table jobs).table) :
    a ∈ table ∨ (a.assigned_by = a.user_id ∧
      ∃ j ∈ jobs, a.user_id = j.assigned_to ∧ a.assigned_by = j.assigned_to) := by
  unfold backfillJobAssignments commitRun at ha
  rcases List.mem_append.mp ha with h | h
  · rw [foldl_processJob_committed] at h
    exact Or.inl h
  · rcases foldl_processJob_pending_mem tenants rejects jobs (initRun table) a h with
      h0 | ⟨j, hj, rfl⟩
    · exact absurd h0 (List.not_mem_nil a)
    · exact Or.inr ⟨rfl, j, hj, rfl, rfl⟩

/-- C9 witness: the assignment created for the first sample job names the
assignee as their own assigner. -/
theorem claim9_witness :
    mkAssignment jobA ∈ ([] : List JobAssignment) ∨
    ((mkAssignment jobA).assigned_by = (mkAssignment jobA).user_id ∧
      ∃ j ∈ [jobA], (mkAssignment jobA).user_id = j.assigned_to ∧
        (mkAssignment jobA).assigned_by = j.assigned_to) :=
  claim9_theorem ["tenant-1"] rejectsNone [] [jobA] (mkAssignment jobA) (by decide)

/- ### Lemmas about the transaction-grouping pass -/

theorem bumpGroup_item_id (tx : Tx) (g : ItemGroup) : (bumpGroup tx g).item_id = g.item_id := by
  unfold bumpGroup
  split <;> rfl

theorem filter_map_bumpGroup (tx : Tx) (groups : List ItemGroup) (q : Uuid) :
    (groups.map (bumpGroup tx)).filter (fun g => g.item_id == q)
      = (groups.filter fun g => g.item_id == q).map (bumpGroup tx) := by
  induction groups with
  | nil => rfl
  | cons g gs ih =>
    simp only [List.map_cons, List.filter_cons, bumpGroup_item_id]
    by_cases hq : (g.item_id == q) = true
    · simp [hq, ih]
    · simp [hq, ih]

/-- Effect of one grouping iteration on the per-key entry count and quantity
total, assuming each key occurs at most once (the dict invariant). -/
theorem insertTx_spec (groups groups' : List ItemGroup) (tx : Tx)
    (hinv : ∀ y, keyCount groups y ≤ 1) (h : insertTx groups tx = some groups') (x : Uuid) :
    keyCount groups' x = (if tx.item_id == x then 1 else keyCount groups x) ∧
    keyQty groups' x = keyQty groups x + (if tx.item_id == x then tx.quantity else 0) := by
  unfold insertTx at h
  by_cases hany : (groups.any fun g => g.item_id == tx.item_id) = true
  · rw [if_pos hany] at h
    injection h with h
    subst h
    by_cases hx : (tx.item_id == x) = true
    · have hxeq : tx.item_id = x := beq_iff_eq.mp hx
      obtain ⟨g, hg, hgp⟩ := List.any_eq_true.mp hany
      have hone : keyCount groups x = 1 := by
        have hmem : g ∈ groups.filter fun g => g.item_id == x := by
          rw [List.mem_filter]
          exact ⟨hg, by rw [← hxeq]; exact hgp⟩
        have := List.length_pos_of_mem hmem
        have := hinv x
        unfold keyCount at *
        omega
      obtain ⟨g0, hg0⟩ := List.length_eq_one.mp hone
      have hg0mem : g0 ∈ groups.filter fun g => g.item_id == x := by rw [hg0]; simp
      have hg0key : g0.item_id = tx.item_id := by
        rw [hxeq]
        exact beq_iff_eq.mp (List.mem_filter.mp hg0mem).2
      constructor
      · rw [if_pos hx]
        unfold keyCount at *
        rw [filter_map_bumpGroup, List.length_map, hone]
      · rw [if_pos hx]
        unfold keyQty
        rw [filter_map_bumpGroup, hg0]
        simp [bumpGroup, hg0key]
    · have hfix : ∀ g ∈ groups.filter fun g => g.item_id == x, bumpGroup tx g = g := by
        intro g hgmem
        have hgx : g.item_id = x := beq_iff_eq.mp (List.mem_filter.mp hgmem).2
        unfold bumpGroup
        rw [if_neg]
        intro hcontra
        have : g.item_id = tx.item_id := beq_iff_eq.mp hcontra
        rw [hgx] at this
        rw [← this] at hx
        simp at hx
      have hsame : (groups.map (bumpGroup tx)).filter (fun g => g.item_id == x)
          = groups.filter fun g => g.item_id == x := by
        rw [filter_map_bumpGroup]
        conv_rhs => rw [← List.map_id (groups.filter fun g => g.item_id == x)]
        exact List.map_congr_left hfix
      rw [if_neg (by simp [hx]), if_neg (by simp [hx])]
      unfold keyCount keyQty
      rw [hsame]
      simp
  · rw [if_neg hany] at h
    cases htx : tx.items with
    | none => rw [htx] at h; cases h
    | some info =>
      rw [htx] at h
      injection h with h
      subst h
      have hnone : (groups.filter fun g => g.item_id == tx.item_id) = [] := by
        rw [List.filter_eq_nil_iff]
        intro g hg hgp
        exact (Bool.eq_false_iff.mp (Bool.of_not_eq_true hany)) (List.any_eq_true.mpr ⟨g, hg, hgp⟩)
      by_cases hx : (tx.item_id == x) = true
      · have hxeq : tx.item_id = x := beq_iff_eq.mp hx
        constructor
        · rw [if_pos hx]
          unfold keyCount
          rw [List.filter_append, ← hxeq, hnone]
          simp
        · rw [if_pos hx]
          unfold keyQty
          rw [List.filter_append, ← hxeq, hnone]
          simp
      · constructor
        · rw [if_neg (by simp [hx])]
          unfold keyCount
          rw [List.filter_append]
          simp [hx]
        · rw [if_neg (by simp [hx])]
          unfold keyQty
          rw [List.filter_append]
          simp [hx]

theorem txQty_cons (t : Tx) (rest : List Tx) (x : Uuid) :
    txQty (t :: rest) x = (if t.item_id == x then t.quantity else 0) + txQty rest x := by
  unfold txQty
  rw [List.filter_cons]
  split
  · simp
  · simp

/-- Effect of the whole grouping fold on per-key counts and quantity totals:
every key occurring among the transactions ends with exactly one entry whose
total is the initial total plus the summed transaction quantities. -/
theorem foldlM_insertTx_spec (txs : List Tx) : ∀ groups groups' : List ItemGroup,
    (∀ y, keyCount groups y ≤ 1) → List.foldlM insertTx groups txs = some groups' →
    (∀ y, keyCount groups' y ≤ 1) ∧
    ∀ x, (keyCount groups' x
        = if txs.any (fun t => t.item_id == x) then 1 else keyCount groups x) ∧
      keyQty groups' x = keyQty groups x + txQty txs x := by
  induction txs with
  | nil =>
    intro groups groups' hinv h
    simp [List.foldlM] at h
    subst h
    refine ⟨hinv, fun x => ⟨by simp, by simp [txQty]⟩⟩
  | cons t rest ih =>
    intro groups groups' hinv h
    rw [List.foldlM_cons] at h
    cases hmid : insertTx groups t with
    | none => rw [hmid] at h; cases h
    | some mid =>
      rw [hmid] at h
      have h' : List.foldlM insertTx mid rest = some groups' := h
      have hmidspec := fun x => insertTx_spec groups mid t hinv hmid x
      have hmidinv : ∀ y, keyCount mid y ≤ 1 := by
        intro y
        rw [(hmidspec y).1]
        split
        · omega
        · exact hinv y
      obtain ⟨hinv', hspec⟩ := ih mid groups' hmidinv h'
      refine ⟨hinv', fun x => ⟨?_, ?_⟩⟩
      · rw [(hspec x).1, (hmidspec x).1]
        by_cases hx : (t.item_id == x) = true
        · simp [hx]
        · simp [hx]
      · rw [(hspec x).2, (hmidspec x).2, txQty_cons]
        omega

/-- Per-key shape of the grouping result from an empty dict. -/
theorem groupTransactions_spec (txs : List Tx) (groups : List ItemGroup)
    (h : groupTransactions txs = some groups) (x : Uuid) :
    (keyCount groups x = if txs.any (fun t => t.item_id == x) then 1 else 0) ∧
    keyQty groups x = txQty txs x := by
  obtain ⟨-, hspec⟩ := foldlM_insertTx_spec txs [] groups
    (by intro y; simp [keyCount]) h
  refine ⟨?_, ?_⟩
  · rw [(hspec x).1]
    simp [keyCount]
  · rw [(hspec x).2]
    simp [keyQty]

/-- The insert loop creates exactly one checklist row per group entry, with
the entry's item key and quantity total; sequence numbers do not affect
this. -/
theorem buildChecklistItemsFrom_filter (job : Uuid) (gs : List ItemGroup) :
    ∀ (seq : Nat) (x : Uuid),
    ((buildChecklistItemsFrom job seq gs).filter fun c => c.item_id == x).length
      = keyCount gs x ∧
    (((buildChecklistItemsFrom job seq gs).filter fun c => c.item_id == x).map
        ChecklistItem.quantity).sum = keyQty gs x := by
  induction gs with
  | nil => intro seq x; simp [buildChecklistItemsFrom, keyCount, keyQty]
  | cons g rest ih =>
    intro seq x
    unfold buildChecklistItemsFrom keyCount keyQty
    rw [List.filter_cons, List.filter_cons]
    by_cases hx : (g.item_id == x) = true
    · simp only [hx, if_pos]
      constructor
      · simp only [List.length_cons]
        have := (ih (seq + 1) x).1
        unfold keyCount at this
        rw [this]
      · simp only [List.map_cons, List.sum_cons]
        have := (ih (seq + 1) x).2
        unfold keyQty at this
        rw [this]
    · simp only [hx]
      constructor
      · have := (ih (seq + 1) x).1
        unfold keyCount at this
        simpa using this
      · have := (ih (seq + 1) x).2
        unfold keyQty at this
        simpa using this

/- ### Claim theorems on the transaction-checklist backfill -/

/-- C1 counterexample: the transaction-checklist backfill has no existence
probe.  With one fixed check_out transaction, the first run inserts one
checklist row; an immediately repeated run over the unchanged transactions
inserts the same row again — the second run creates 1 row (not 0), the
dependent table's contents change, and two rows now share the natural key
(job, item-1). -/
theorem claim1_counterexample :
    backfillChecklist "job-cl" [] [⟨"item-1", 2, some infoMower⟩]
      = some [⟨"job-cl", 1, "equipment", "item-1", "Mower", 2, "pending"⟩] ∧
    backfillChecklist "job-cl"
        [⟨"job-cl", 1, "equipment", "item-1", "Mower", 2, "pending"⟩]
        [⟨"item-1", 2, some infoMower⟩]
      = some [⟨"job-cl", 1, "equipment", "item-1", "Mower", 2, "pending"⟩,
              ⟨"job-cl", 1, "equipment", "item-1", "Mower", 2, "pending"⟩] := by
  decide

/-- C6: for every natural key occurring among the fetched transactions, the
backfill creates exactly one checklist row with that key, and its quantity is
the sum of the quantities of all transactions sharing the key; the run
appends exactly the built rows to the table. -/
theorem claim6_theorem (job : Uuid) (table : List ChecklistItem) (txs : List Tx)
    (groups : List ItemGroup) (x : Uuid)
    (hg : groupTransactions txs = some groups)
    (hx : txs.any (fun t => t.item_id == x) = true) :
    backfillChecklist job table txs = some (table ++ buildChecklistItems job groups) ∧
    ((buildChecklistItems job groups).filter fun c => c.item_id == x).length = 1 ∧
    (((buildChecklistItems job groups).filter fun c => c.item_id == x).map
        ChecklistItem.quantity).sum = txQty txs x := by
  have hb := buildChecklistItemsFrom_filter job groups 1 x
  have hs := groupTransactions_spec txs groups hg x
  refine ⟨by simp [backfillChecklist, hg], ?_, ?_⟩
  · unfold buildChecklistItems
    rw [hb.1, hs.1, if_pos hx]
  · unfold buildChecklistItems
    rw [hb.2, hs.2]

/-- C6 witness: four check_out transactions for the same item collapse into
one checklist row whose quantity is the sum 2+1+4+3 = 10. -/
theorem claim6_witness :
    backfillChecklist "job-1" [] txsMower
      = some ([] ++ buildChecklistItems "job-1"
          [(⟨"item-1", "Mower", "equipment", "landscaping", 10⟩ : ItemGroup)]) ∧
    ((buildChecklistItems "job-1"
        [(⟨"item-1", "Mower", "equipment", "landscaping", 10⟩ : ItemGroup)]).filter
        fun c => c.item_id == "item-1").length = 1 ∧
    (((buildChecklistItems "job-1"
        [(⟨"item-1", "Mower", "equipment", "landscaping", 10⟩ : ItemGroup)]).filter
        fun c => c.item_id == "item-1").map ChecklistItem.quantity).sum
      = txQty txsMower "item-1" :=
  claim6_theorem "job-1" [] txsMower
    [(⟨"item-1", "Mower", "equipment", "landscaping", 10⟩ : ItemGroup)] "item-1"
    (by decide) (by decide)

/- ### Lemmas about the workflow-task-items backfill -/

/-- The associations POST either leaves the table unchanged or appends the
posted association. -/
theorem postAssociation_snd (tenants : List Uuid) (rejects : Association → Bool)
    (assocs : List Association) (a : Association) :
    (postAssociation tenants rejects assocs a).2 = assocs ∨
    (postAssociation tenants rejects assocs a).2 = assocs ++ [a] := by
  unfold postAssociation
  split
  · exact Or.inl rfl
  · split
    · exact Or.inl rfl
    · split
      · exact Or.inl rfl
      · exact Or.inr rfl

/-- One checklist-item step either leaves the associations unchanged or
appends exactly the association it built for the current task. -/
theorem processChecklistItem_snd (rejects : Association → Bool) (tenants items : List Uuid)
    (tenant task : Uuid) (st : JobStats × List Association) (c : RawChecklistItem) :
    (processChecklistItem rejects tenants items tenant task st c).2 = st.2 ∨
    ∃ i, (processChecklistItem rejects tenants items tenant task st c).2
      = st.2 ++ [mkAssociation tenant task i c] := by
  unfold processChecklistItem
  split
  next => exact Or.inl rfl
  next i heq =>
    split
    · exact Or.inl rfl
    · have h2 := postAssociation_snd tenants rejects st.2 (mkAssociation tenant task i c)
      rcases hpost : postAssociation tenants rejects st.2 (mkAssociation tenant task i c)
        with ⟨res, assocs'⟩
      rw [hpost] at h2
      cases res
      · rcases h2 with h2 | h2
        · exact Or.inl h2
        · exact Or.inr ⟨i, h2⟩
      · rcases h2 with h2 | h2
        · exact Or.inl h2
        · exact Or.inr ⟨i, h2⟩
      · rcases h2 with h2 | h2
        · exact Or.inl h2
        · exact Or.inr ⟨i, h2⟩

/-- Every association present after the per-job loop was either already in the
table or was created for the job's workflow task. -/
theorem foldl_processChecklistItem_assoc_mem (rejects : Association → Bool)
    (tenants items : List Uuid) (tenant task : Uuid) (cs : List RawChecklistItem) :
    ∀ (st : JobStats × List Association) (a : Association),
    a ∈ (List.foldl (processChecklistItem rejects tenants items tenant task) st cs).2 →
    a ∈ st.2 ∨ a.workflow_task_id = task := by
  induction cs with
  | nil => intro st a ha; exact Or.inl ha
  | cons c rest ih =>
    intro st a ha
    rw [List.foldl_cons] at ha
    rcases ih _ a ha with h | h
    · rcases processChecklistItem_snd rejects tenants items tenant task st c with h2 | ⟨i, h2⟩
      · rw [h2] at h
        exact Or.inl h
      · rw [h2] at h
        rcases List.mem_append.mp h with h3 | h3
        · exact Or.inl h3
        · right
          rw [List.mem_singleton.mp h3]
          rfl
    · exact Or.inr h

/-- When no workflow_tasks POST can fail, get_or_create_default_task always
returns a task id. -/
theorem get_or_create_ok (oracle : WOracle) (fresh : Uuid) (db : WDb)
    (job_id tenant_id : Uuid) (hnt : ∀ t, oracle.taskFails t = false) :
    ∃ p, get_or_create_default_task oracle fresh db job_id tenant_id = .ok p := by
  unfold get_or_create_default_task
  cases db.tasks.find? fun t => t.job_id == job_id with
  | some t => exact ⟨_, rfl⟩
  | none =>
    refine ⟨((defaultTask fresh job_id tenant_id).id,
      { db with tasks := db.tasks ++ [defaultTask fresh job_id tenant_id] }), ?_⟩
    simp [hnt]

/-- When no workflow_tasks POST can fail, backfill_job always returns
per-job stats instead of aborting. -/
theorem backfill_job_ok (oracle : WOracle) (fresh : Uuid) (db : WDb) (job : WJob)
    (dry_run : Bool) (hnt : ∀ t, oracle.taskFails t = false) :
    ∃ p, backfill_job oracle fresh db job dry_run = .ok p := by
  unfold backfill_job
  split
  · exact ⟨_, rfl⟩
  · split
    · exact ⟨_, rfl⟩
    · obtain ⟨⟨tid, db1⟩, hp⟩ := get_or_create_ok oracle fresh db job.id job.tenant_id hnt
      rw [hp]
      exact ⟨_, rfl⟩

/-- When no workflow_tasks POST can fail, the whole job loop runs to the end
and produces a summary. -/
theorem foldlM_wStep_ok (oracle : WOracle) (freshId : WJob → Uuid) (dry_run : Bool)
    (hnt : ∀ t, oracle.taskFails t = false) (js : List WJob) : ∀ acc : WSummary,
    ∃ s, List.foldlM (wStep oracle freshId dry_run) acc js = .ok s := by
  induction js with
  | nil => intro acc; exact ⟨acc, rfl⟩
  | cons j rest ih =>
    intro acc
    obtain ⟨⟨stats, db'⟩, hb⟩ := backfill_job_ok oracle (freshId j) acc.db j dry_run hnt
    obtain ⟨s, hs⟩ := ih ⟨acc.created + stats.created, acc.errors + stats.errors,
      acc.skipped + stats.skipped, db'⟩
    refine ⟨s, ?_⟩
    rw [List.foldlM_cons]
    have hw : wStep oracle freshId dry_run acc j
        = .ok ⟨acc.created + stats.created, acc.errors + stats.errors,
            acc.skipped + stats.skipped, db'⟩ := by
      unfold wStep
      rw [hb]
    rw [hw]
    exact hs

/-- In dry-run mode the job loop only accumulates the reported counts: the
database threads through unchanged and no errors arise. -/
theorem foldlM_wStep_dry (oracle : WOracle) (freshId : WJob → Uuid) (js : List WJob) :
    ∀ acc : WSummary,
    List.foldlM (wStep oracle freshId true) acc js
      = .ok ⟨acc.created + (js.map fun j => if j.checklist_items.isEmpty then 0
            else j.checklist_items.length).sum,
          acc.errors,
          acc.skipped + (js.map fun j => if j.checklist_items.isEmpty then 1 else 0).sum,
          acc.db⟩ := by
  induction js with
  | nil => intro acc; rfl
  | cons j rest ih =>
    intro acc
    rw [List.foldlM_cons]
    by_cases h : j.checklist_items.isEmpty = true
    · have hw : wStep oracle freshId true acc j
          = .ok ⟨acc.created + 0, acc.errors + 0, acc.skipped + 1, acc.db⟩ := by
        unfold wStep backfill_job
        rw [h]
        simp
      rw [hw]
      have h' : List.foldlM (wStep oracle freshId true)
          (⟨acc.created + 0, acc.errors + 0, acc.skipped + 1, acc.db⟩ : WSummary) rest
          = .ok ⟨(acc.created + 0) + (rest.map fun j => if j.checklist_items.isEmpty then 0
                else j.checklist_items.length).sum,
              acc.errors + 0,
              (acc.skipped + 1) + (rest.map fun j => if j.checklist_items.isEmpty then 1
                else 0).sum,
              acc.db⟩ := ih _
      rw [show ((.ok ⟨acc.created + 0, acc.errors + 0, acc.skipped + 1, acc.db⟩ :
          Except WAbort WSummary) >>= fun acc' =>
            List.foldlM (wStep oracle freshId true) acc' rest)
          = List.foldlM (wStep oracle freshId true)
            (⟨acc.created + 0, acc.errors + 0, acc.skipped + 1, acc.db⟩ : WSummary) rest
        from rfl, h']
      have he : j.checklist_items = [] := by simpa using h
      have hmap : ((j :: rest).map fun j => if j.checklist_items.isEmpty then 0
          else j.checklist_items.length).sum
          = 0 + (rest.map fun j => if j.checklist_items.isEmpty then 0
            else j.checklist_items.length).sum := by simp [he]
      have hmap2 : ((j :: rest).map fun j => if j.checklist_items.isEmpty then 1 else 0).sum
          = 1 + (rest.map fun j => if j.checklist_items.isEmpty then 1 else 0).sum := by
        simp [he]
      rw [hmap, hmap2]
      congr 1
      congr 1 <;> first | rfl | (simp; try omega)
    · have hne : ¬ j.checklist_items.isEmpty = true := h
      have hw : wStep oracle freshId true acc j
          = .ok ⟨acc.created + j.checklist_items.length, acc.errors + 0,
              acc.skipped + 0, acc.db⟩ := by
        unfold wStep backfill_job
        rw [if_neg hne]
        simp
      rw [hw]
      have h' := ih (⟨acc.created + j.checklist_items.length, acc.errors + 0,
        acc.skipped + 0, acc.db⟩ : WSummary)
      rw [show ((.ok ⟨acc.created + j.checklist_items.length, acc.errors + 0,
          acc.skipped + 0, acc.db⟩ : Except WAbort WSummary) >>= fun acc' =>
            List.foldlM (wStep oracle freshId true) acc' rest)
          = List.foldlM (wStep oracle freshId true)
            (⟨acc.created + j.checklist_items.length, acc.errors + 0,
              acc.skipped + 0, acc.db⟩ : WSummary) rest
        from rfl, h']
      have he : j.checklist_items ≠ [] := by simpa using h
      have hmap : ((j :: rest).map fun j => if j.checklist_items.isEmpty then 0
          else j.checklist_items.length).sum
          = j.checklist_items.length + (rest.map fun j => if j.checklist_items.isEmpty then 0
            else j.checklist_items.length).sum := by simp [he]
      have hmap2 : ((j :: rest).map fun j => if j.checklist_items.isEmpty then 1 else 0).sum
          = 0 + (rest.map fun j => if j.checklist_items.isEmpty then 1 else 0).sum := by
        simp [he]
      rw [hmap, hmap2]
      congr 1
      congr 1 <;> first | rfl | (simp; try omega)

/-- The grouping loop is total on batches whose joined item records are all
present. -/
theorem foldlM_insertTx_total (txs : List Tx) : ∀ init : List ItemGroup,
    (∀ t ∈ txs, t.items ≠ none) → ∃ gs, List.foldlM insertTx init txs = some gs := by
  induction txs with
  | nil => intro init _; exact ⟨init, rfl⟩
  | cons t rest ih =>
    intro init hall
    have hmid : ∃ mid, insertTx init t = some mid := by
      unfold insertTx
      split
      · exact ⟨_, rfl⟩
      · cases htx : t.items with
        | none => exact absurd htx (hall t (by simp))
        | some info => exact ⟨_, rfl⟩
    obtain ⟨mid, hmid⟩ := hmid
    obtain ⟨gs, hgs⟩ := ih mid fun t' ht' => hall t' (List.mem_cons_of_mem _ ht')
    refine ⟨gs, ?_⟩
    rw [List.foldlM_cons, hmid]
    exact hgs

/-- Shape of one backfill_job run once the fetch-phase checks are fixed: a
nonempty checklist, no dry-run, and a successfully obtained task id. -/
theorem backfill_job_eq (oracle : WOracle) (fresh : Uuid) (db : WDb) (job : WJob)
    (hne : job.checklist_items.isEmpty = false) (tid : Uuid) (db1 : WDb)
    (hget : get_or_create_default_task oracle fresh db job.id job.tenant_id = .ok (tid, db1)) :
    backfill_job oracle fresh db job false
      = .ok ((List.foldl (processChecklistItem oracle.assocRejects db1.tenants db1.items
            job.tenant_id tid) (⟨0, 0, 0⟩, db1.assocs) job.checklist_items).1,
          { db1 with assocs := (List.foldl (processChecklistItem oracle.assocRejects
            db1.tenants db1.items job.tenant_id tid) (⟨0, 0, 0⟩, db1.assocs)
            job.checklist_items).2 }) := by
  unfold backfill_job
  rw [hne, hget]
  simp

/- ### Claim theorems on the workflow-task-items reconciler -/

/-- C2 counterexample: a candidate job whose tenant (t-ghost) is absent from
the tenants table, processed by the workflow-task-items reconciler (which
validates item references but never tenants): the association POST is
rejected by the store's tenant foreign key and the candidate is counted as an
error (`errors = 1`, `skipped = 0`, `created = 0`) — it is classified as
Rejected, not Skipped. -/
theorem claim2_counterexample :
    backfill_job oracleOk "task-new" dbGhost jobGhostW false
      = .ok (⟨0, 0, 1⟩, dbGhost) := by
  rfl

/-- C4: in the workflow-task-items reconciler, when the candidate's
association already exists under the same natural key (workflow task + item),
the insert outcome is the duplicate-key conflict: the step changes neither the
counters (no error is recorded) nor the table, and the loop over the
remaining candidates continues as if the candidate were absent; an insert
rejected for any other reason is recorded as an error. -/
theorem claim4_theorem (rejects : Association → Bool) (tenants items : List Uuid)
    (tenant task : Uuid) (stats : JobStats) (assocs : List Association)
    (c : RawChecklistItem) (i : Uuid)
    (hid : c.id = some i) (hitem : items.contains i = true) :
    ((assocs.any fun b => b.workflow_task_id == task && b.item_id == i) = true →
      processChecklistItem rejects tenants items tenant task (stats, assocs) c
        = (stats, assocs) ∧
      ∀ cs, List.foldl (processChecklistItem rejects tenants items tenant task)
          (stats, assocs) (c :: cs)
        = List.foldl (processChecklistItem rejects tenants items tenant task)
          (stats, assocs) cs) ∧
    ((assocs.any fun b => b.workflow_task_id == task && b.item_id == i) = false →
      rejects (mkAssociation tenant task i c) = true →
      processChecklistItem rejects tenants items tenant task (stats, assocs) c
        = ({ stats with errors := stats.errors + 1 }, assocs)) := by
  constructor
  · intro hdup
    have hC : (assocs.any fun b =>
        b.workflow_task_id == (mkAssociation tenant task i c).workflow_task_id &&
        b.item_id == (mkAssociation tenant task i c).item_id) = true := hdup
    have hstep : processChecklistItem rejects tenants items tenant task (stats, assocs) c
        = (stats, assocs) := by
      simp only [processChecklistItem, hid]
      rw [if_neg (by simpa using hitem)]
      rw [show postAssociation tenants rejects assocs (mkAssociation tenant task i c)
          = (.dupKey, assocs) from by unfold postAssociation; rw [hC]; simp]
    exact ⟨hstep, fun cs => by rw [List.foldl_cons, hstep]⟩
  · intro hdup hrej
    have hC : (assocs.any fun b =>
        b.workflow_task_id == (mkAssociation tenant task i c).workflow_task_id &&
        b.item_id == (mkAssociation tenant task i c).item_id) = false := hdup
    simp only [processChecklistItem, hid]
    rw [if_neg (by simpa using hitem)]
    rw [show postAssociation tenants rejects assocs (mkAssociation tenant task i c)
        = (.rejected, assocs) from by
      unfold postAssociation
      rw [hC]
      simp only [mkAssociation] at hrej ⊢
      simp [hrej]]

/-- C4 witness: with the association already present the step is a no-op;
with an empty table and a store rejecting the insert for another reason the
step records an error. -/
theorem claim4_witness :
    (processChecklistItem (fun _ => false) ["t-real"] ["item-1"] "t-real" "task-2"
        (⟨0, 0, 0⟩, [mkAssociation "t-real" "task-2" "item-1" rciMower]) rciMower
      = (⟨0, 0, 0⟩, [mkAssociation "t-real" "task-2" "item-1" rciMower]) ∧
      ∀ cs, List.foldl (processChecklistItem (fun _ => false) ["t-real"] ["item-1"]
          "t-real" "task-2")
          (⟨0, 0, 0⟩, [mkAssociation "t-real" "task-2" "item-1" rciMower]) (rciMower :: cs)
        = List.foldl (processChecklistItem (fun _ => false) ["t-real"] ["item-1"]
          "t-real" "task-2")
          (⟨0, 0, 0⟩, [mkAssociation "t-real" "task-2" "item-1" rciMower]) cs) ∧
    processChecklistItem (fun _ => true) ["t-real"] ["item-1"] "t-real" "task-2"
        (⟨0, 0, 0⟩, []) rciMower
      = (⟨0, 0, 1⟩, []) := by
  constructor
  · exact (claim4_theorem (fun _ => false) ["t-real"] ["item-1"] "t-real" "task-2"
      ⟨0, 0, 0⟩ [mkAssociation "t-real" "task-2" "item-1" rciMower] rciMower "item-1"
      rfl (by decide)).1 (by decide)
  · exact (claim4_theorem (fun _ => true) ["t-real"] ["item-1"] "t-real" "task-2"
      ⟨0, 0, 0⟩ [] rciMower "item-1" rfl (by decide)).2 (by decide) rfl

/-- C5 (amended): a failed jobs fetch aborts the run with SourceUnavailable
before anything else happens; and when additionally no default-task POST can
fail, the run always returns a summary.  (Failure of the default-task POST is
a second hard abort, see the counterexample.) -/
theorem claim5_theorem (oracle : WOracle) (freshId : WJob → Uuid) (db : WDb)
    (jobs : List WJob) (dry_run : Bool) (limit : Nat)
    (hnt : ∀ t, oracle.taskFails t = false) :
    runBackfill oracle freshId false db jobs dry_run limit = .error .sourceUnavailable ∧
    ∃ s, runBackfill oracle freshId true db jobs dry_run limit = .ok s := by
  refine ⟨rfl, ?_⟩
  unfold runBackfill
  rw [if_pos rfl]
  exact foldlM_wStep_ok oracle freshId dry_run hnt (jobs.take limit) ⟨0, 0, 0, db⟩

/-- C5 witness: concrete run with a healthy store — the failed-fetch case
aborts, the successful-fetch case returns a summary. -/
theorem claim5_witness :
    runBackfill oracleOk (fun _ => "task-new") false dbNoTask [jobValidW] false 100
      = .error .sourceUnavailable ∧
    ∃ s, runBackfill oracleOk (fun _ => "task-new") true dbNoTask [jobValidW] false 100
      = .ok s :=
  claim5_theorem oracleOk (fun _ => "task-new") dbNoTask [jobValidW] false 100
    (fun _ => rfl)

/-- C5 counterexample: the fetch succeeds, yet the run aborts mid-batch with
`sys.exit(1)` because the default workflow-task POST for the first candidate
fails — a per-candidate failure that propagates as a hard failure instead of
being caught and accumulated, so `reconcile` does not always return a
ReconciliationResult when the source is available. -/
theorem claim5_counterexample :
    runBackfill oracleTaskFail (fun _ => "task-new") true dbNoTask [jobValidW] false 100
      = .error .taskCreateFailed := by
  rfl

/-- C7: a dry run reports every checklist item of every processed
(nonempty-checklist) job as created and performs no write at all: the summary
carries zero errors, the per-job skip count for empty checklists, and the
database — workflow_tasks, associations, and every other table — exactly as
it was. -/
theorem claim7_theorem (oracle : WOracle) (freshId : WJob → Uuid) (db : WDb)
    (jobs : List WJob) (limit : Nat) :
    runBackfill oracle freshId true db jobs true limit
      = .ok ⟨((jobs.take limit).map fun j => if j.checklist_items.isEmpty then 0
            else j.checklist_items.length).sum,
          0,
          ((jobs.take limit).map fun j => if j.checklist_items.isEmpty then 1 else 0).sum,
          db⟩ := by
  unfold runBackfill
  rw [if_pos rfl, foldlM_wStep_dry]
  congr 1
  congr 1 <;> first | rfl | simp

/-- C8 (amended): derivation in the workflow reconciler is total — a
checklist entry with no item id is passed over without any effect — and the
transaction grouping is total on batches whose joined item records are all
present; a null joined item record, however, raises instead of yielding a
Skip (see the counterexample). -/
theorem claim8_theorem (rejects : Association → Bool) (tenants items : List Uuid)
    (tenant task : Uuid) (st : JobStats × List Association) (c : RawChecklistItem)
    (txs : List Tx) (hc : c.id = none) (hall : ∀ t ∈ txs, t.items ≠ none) :
    processChecklistItem rejects tenants items tenant task st c = st ∧
    ∃ gs, groupTransactions txs = some gs := by
  constructor
  · simp [processChecklistItem, hc]
  · exact foldlM_insertTx_total txs [] hall

/-- C8 witness: an id-less checklist entry is skipped without effect, and the
four-transaction batch with joined items groups successfully. -/
theorem claim8_witness :
    processChecklistItem (fun _ => false) ["t-real"] ["item-1"] "t-real" "task-2"
        (⟨0, 0, 0⟩, []) ⟨none, none, false, false, false⟩ = (⟨0, 0, 0⟩, []) ∧
    ∃ gs, groupTransactions txsMower = some gs :=
  claim8_theorem (fun _ => false) ["t-real"] ["item-1"] "t-real" "task-2" (⟨0, 0, 0⟩, [])
    ⟨none, none, false, false, false⟩ txsMower rfl (by decide)

/-- C8 counterexample: a transaction whose joined item record is null makes
the grouping loop raise (subscripting None), modelled as `none`: derivation
does not yield a TargetRecord or a Skip for this expected shape. -/
theorem claim8_counterexample :
    groupTransactions [txNullItems] = none ∧
    backfillChecklist "job-cl" [] [txNullItems] = none := by
  decide

/-- C10: outside dry-run mode, for a job with a nonempty checklist: if the
job already has a workflow task, the first one is reused and workflow_tasks
is untouched; if it has none, exactly one default task (task_order 1, status
pending) is appended to workflow_tasks before any association is created; in
both cases every new association row carries the task id that was used. -/
theorem claim10_theorem (oracle : WOracle) (fresh : Uuid) (db : WDb) (job : WJob)
    (hne : job.checklist_items ≠ []) :
    (∀ t0, db.tasks.find? (fun t => t.job_id == job.id) = some t0 →
      ∃ stats db', backfill_job oracle fresh db job false = .ok (stats, db') ∧
        db'.tasks = db.tasks ∧
        ∀ a ∈ db'.assocs, a ∈ db.assocs ∨ a.workflow_task_id = t0.id) ∧
    (db.tasks.find? (fun t => t.job_id == job.id) = none →
      oracle.taskFails (defaultTask fresh job.id job.tenant_id) = false →
      ∃ stats db', backfill_job oracle fresh db job false = .ok (stats, db') ∧
        db'.tasks = db.tasks ++ [defaultTask fresh job.id job.tenant_id] ∧
        (defaultTask fresh job.id job.tenant_id).task_order = 1 ∧
        (defaultTask fresh job.id job.tenant_id).status = "pending" ∧
        ∀ a ∈ db'.assocs, a ∈ db.assocs ∨ a.workflow_task_id = fresh) := by
  have hne' : job.checklist_items.isEmpty = false := List.isEmpty_eq_false.mpr hne
  constructor
  · intro t0 hfind
    have hget : get_or_create_default_task oracle fresh db job.id job.tenant_id
        = .ok (t0.id, db) := by
      unfold get_or_create_default_task
      rw [hfind]
    refine ⟨_, _, backfill_job_eq oracle fresh db job hne' t0.id db hget, rfl, ?_⟩
    intro a ha
    exact foldl_processChecklistItem_assoc_mem oracle.assocRejects db.tenants db.items
      job.tenant_id t0.id job.checklist_items (⟨0, 0, 0⟩, db.assocs) a ha
  · intro hfind hok
    have hget : get_or_create_default_task oracle fresh db job.id job.tenant_id
        = .ok ((defaultTask fresh job.id job.tenant_id).id,
            { db with tasks := db.tasks ++ [defaultTask fresh job.id job.tenant_id] }) := by
      unfold get_or_create_default_task
      rw [hfind]
      simp [hok]
    refine ⟨_, _, backfill_job_eq oracle fresh db job hne'
      (defaultTask fresh job.id job.tenant_id).id
      { db with tasks := db.tasks ++ [defaultTask fresh job.id job.tenant_id] } hget,
      rfl, rfl, rfl, ?_⟩
    intro a ha
    exact foldl_processChecklistItem_assoc_mem oracle.assocRejects db.tenants db.items
      job.tenant_id (defaultTask fresh job.id job.tenant_id).id job.checklist_items
      (⟨0, 0, 0⟩, db.assocs) a ha

/-- C10 witness: with an existing task the tasks table is untouched and the
task is reused; with no task exactly one default task is inserted. -/
theorem claim10_witness :
    (∃ stats db', backfill_job oracleOk "task-new" dbWithTask jobValidW false
        = .ok (stats, db') ∧
      db'.tasks = dbWithTask.tasks ∧
      ∀ a ∈ db'.assocs, a ∈ dbWithTask.assocs ∨ a.workflow_task_id = taskW2.id) ∧
    (∃ stats db', backfill_job oracleOk "task-new" dbNoTask jobValidW false
        = .ok (stats, db') ∧
      db'.tasks = dbNoTask.tasks
        ++ [defaultTask "task-new" jobValidW.id jobValidW.tenant_id] ∧
      (defaultTask "task-new" jobValidW.id jobValidW.tenant_id).task_order = 1 ∧
      (defaultTask "task-new" jobValidW.id jobValidW.tenant_id).status = "pending" ∧
      ∀ a ∈ db'.assocs, a ∈ dbNoTask.assocs ∨ a.workflow_task_id = "task-new") :=
  ⟨(claim10_theorem oracleOk "task-new" dbWithTask jobValidW (by decide)).1 taskW2
      (by decide),
    (claim10_theorem oracleOk "task-new" dbNoTask jobValidW (by decide)).2 (by decide) rfl⟩
